import Mathlib

/-!
Verification of the hookmark-mcp server (`src/index.ts`).

Shallow embedding of the Hookmark MCP server's pure logic:

* `shellEscape` — the minimal shell escaping helper (line 77-79);
* `runHook` — outcome normalisation of the child-process invocation
  (lines 57-74), modelled over an explicit `ExecResult` describing what the
  external process did;
* `extractHookUrl` — the `hook://` URL extraction regex (lines 421-424),
  modelled as a leftmost scan;
* the seven tool handlers (argument-vector construction and output
  post-processing).

JavaScript string truthiness (`if (item)`, `output || fallback`,
`e.stderr || e.message`) is embedded as emptiness tests on strings, which is
exact for strings.  The JS regex class `\s` and `String.prototype.trim` are
modelled with `Char.isWhitespace` / `jsTrim`.
-/

/-- The single-quote character `'` (code 39). -/
def squote : Char := Char.ofNat 39

/-- The backslash character `\` (code 92). -/
def bslash : Char := Char.ofNat 92

/-- The double-quote character `"` (code 34). -/
def dquote : Char := Char.ofNat 34

/-- One step of `s.replace(/'/g, «quote backslash quote quote»)`: a single
quote becomes the four-character sequence `close-quote, escaped quote,
reopen-quote`; every other character is kept as is. -/
def escChar (c : Char) : List Char :=
  if c = squote then [squote, bslash, squote, squote] else [c]

/-- Embedding of `shellEscape` from `src/index.ts` line 77-79, on character lists:
wrap in single quotes, escaping each embedded single quote. -/
def shellEscapeChars (s : List Char) : List Char :=
  squote :: (s.map escChar).flatten ++ [squote]

/-- Embedding of `shellEscape` from `src/index.ts` line 77-79. -/
def shellEscape (s : String) : String :=
  ⟨shellEscapeChars s.data⟩

/-- Parser state of the POSIX word parser: outside quotes, inside single
quotes, or immediately after an unquoted backslash. -/
inductive ShMode where
  | outside
  | quoted
  | escaped
deriving DecidableEq

/-- Characters that a POSIX shell does not take literally when unquoted:
whitespace (word splitting) and the expansion/quoting characters `$`,
backtick (code 96) and the double quote.  A conservative word parser
refuses them outside quotes. -/
def shSpecial (c : Char) : Bool :=
  c.isWhitespace || c = '$' || c = dquote || c.toNat = 96

/-- Modelled from the spec: how a POSIX-compliant shell reads one word
(`For all argument strings ... the escaped form, when parsed by a
POSIX-compliant shell, must yield exactly the original string as a single
argument`).  The shell itself is an external collaborator, not in `src/`.
Returns the literal argument the shell would produce, or `none` when the
input is not a single self-contained word (unterminated quote, trailing
backslash, or an unquoted special character that would split or expand). -/
def shUnquoteAux : ShMode → List Char → Option (List Char)
  | .outside, [] => some []
  | .quoted, [] => none
  | .escaped, [] => none
  | .outside, c :: r =>
      if c = squote then shUnquoteAux .quoted r
      else if c = bslash then shUnquoteAux .escaped r
      else if shSpecial c then none
      else (shUnquoteAux .outside r).map (c :: ·)
  | .quoted, c :: r =>
      if c = squote then shUnquoteAux .outside r
      else (shUnquoteAux .quoted r).map (c :: ·)
  | .escaped, c :: r => (shUnquoteAux .outside r).map (c :: ·)

/-- Parse a whole word as a POSIX shell would, starting outside quotes. -/
def shUnquote (s : List Char) : Option (List Char) :=
  shUnquoteAux .outside s

theorem shUnquoteAux_quoted_escBody (s : List Char) :
    shUnquoteAux .quoted ((s.map escChar).flatten ++ [squote]) = some s := by
  induction s with
  | nil => simp [shUnquoteAux]
  | cons c cs ih =>
      by_cases hc : c = squote
      · subst hc
        have h1 : (bslash = squote) = False := by decide
        simp [escChar, shUnquoteAux, h1, ih]
      · simp [escChar, hc, shUnquoteAux, ih]

theorem shUnquote_shellEscapeChars (s : List Char) :
    shUnquote (shellEscapeChars s) = some s := by
  simpa [shUnquote, shellEscapeChars, shUnquoteAux] using
    shUnquoteAux_quoted_escBody s

/-- Claim C1. For every argument string containing single quotes, the escaped
form parses back, under the POSIX word-parsing model, to exactly the
original string as a single argument. -/
theorem shellEscape_roundtrip (s : String) (h : squote ∈ s.data) :
    shUnquote (shellEscape s).data = some s.data :=
  shUnquote_shellEscapeChars s.data

/-- Witness for `shellEscape_roundtrip` at the concrete input `a'b`. -/
theorem shellEscape_roundtrip_witness :
    squote ∈ ("a'b" : String).data ∧
      shUnquote (shellEscape "a'b").data = some ("a'b" : String).data :=
  ⟨by decide, shellEscape_roundtrip "a'b" (by decide)⟩

/-- The error object thrown by `execSync` on non-zero exit or timeout, with
the fields the source destructures (line 68): captured standard error,
captured standard output, and the error's own message text. -/
structure ExecError where
  stderr : String
  stdout : String
  message : String
deriving DecidableEq

/-- Outcome of running the external process: exit code zero with captured
standard output, or a thrown `ExecError` (non-zero exit or timeout). -/
inductive ExecResult where
  | success (stdout : String)
  | failure (e : ExecError)
deriving DecidableEq

/-- The options record passed to `execSync` (lines 60-64): stdin disabled,
stdout and stderr captured separately, 30-second timeout. -/
structure ExecOptions where
  encoding : String
  stdinMode : String
  stdoutMode : String
  stderrMode : String
  timeout : Nat
deriving DecidableEq

/-- The `execSync` options from `src/index.ts` lines 60-64:
`stdio: ["ignore", "pipe", "pipe"]`, `timeout: 30_000`. -/
def execSyncOptions : ExecOptions :=
  { encoding := "utf-8"
    stdinMode := "ignore"
    stdoutMode := "pipe"
    stderrMode := "pipe"
    timeout := 30000 }

/-- Model of `String.prototype.trim`: strip leading and trailing whitespace. -/
def trimChars (l : List Char) : List Char :=
  ((l.dropWhile Char.isWhitespace).reverse.dropWhile Char.isWhitespace).reverse

/-- Model of `String.prototype.trim` on Lean strings. -/
def jsTrim (s : String) : String :=
  ⟨trimChars s.data⟩

/-- Embedding of `runHook` from `src/index.ts` lines 57-74, as a pure function of the
argument vector and the process outcome.  On success the trimmed stdout is
returned.  On failure, JS `(e.stderr || e.message || "").trim()` picks the
raw stderr when non-empty, else the message, and trims it; if that is empty
the generic message naming `args[0]` is used (an out-of-range `args[0]` is
the JS `undefined`). -/
def runHook (args : List String) (r : ExecResult) : Except String String :=
  match r with
  | .success out => .ok (jsTrim out)
  | .failure e =>
      let detail := jsTrim (if e.stderr ≠ "" then e.stderr else e.message)
      .error
        (if detail ≠ "" then detail
         else "hook " ++ (args.head?.getD "undefined") ++ " failed")

/-- One `{ type: "text", text }` entry of a response envelope. -/
structure ContentItem where
  type : String
  text : String
deriving DecidableEq

/-- The MCP response envelope `{ content, isError }` (absent `isError`
modelled as `false`). -/
structure ToolResponse where
  content : List ContentItem
  isError : Bool
deriving DecidableEq

/-- Embedding of `errorResponse` from `src/index.ts` lines 48-51, specialised to the
error message carried by the model's failures. -/
def errorResponse (msg : String) : ToolResponse :=
  { content := [{ type := "text", text := "Error: " ++ msg }], isError := true }

/-- A plain success envelope with a single text item. -/
def textResponse (t : String) : ToolResponse :=
  { content := [{ type := "text", text := t }], isError := false }

/-- The four values of the `format` enumeration. -/
inductive OutputFormat where
  | paths
  | hooks
  | markdown
  | verbose
deriving DecidableEq

/-- The string the handler pushes for a format value. -/
def formatStr : OutputFormat → String
  | .paths => "paths"
  | .hooks => "hooks"
  | .markdown => "markdown"
  | .verbose => "verbose"

/-- The schema `z.enum(["paths", "hooks", "markdown", "verbose"])` as a parse. -/
def formatOfString (s : String) : Option OutputFormat :=
  if s = "paths" then some .paths
  else if s = "hooks" then some .hooks
  else if s = "markdown" then some .markdown
  else if s = "verbose" then some .verbose
  else none

/-- Character class of the regex at line 422: anything but
whitespace and the two quote characters. -/
def isUrlChar (c : Char) : Bool :=
  !c.isWhitespace && c ≠ squote && c ≠ dquote

/-- The scheme prefix the regex at line 422 looks for. -/
def hookPrefix : List Char := "hook://".data

/-- Try to match the regex at one position: the literal `hook://` followed
by at least one `isUrlChar` character, taken greedily. -/
def tryMatchAt (l : List Char) : Option (List Char) :=
  if l.take 7 = hookPrefix then
    match (l.drop 7).takeWhile isUrlChar with
    | [] => none
    | c :: rest => some (hookPrefix ++ c :: rest)
  else none

/-- Leftmost-match scan of the whole text, as `String.prototype.match` of
the non-anchored regex behaves. -/
def findHookUrl : List Char → Option (List Char)
  | [] => none
  | c :: r =>
      match tryMatchAt (c :: r) with
      | some m => some m
      | none => findHookUrl r

/-- Embedding of `extractHookUrl` from `src/index.ts` lines 421-424. -/
def extractHookUrl (text : String) : Option String :=
  (findHookUrl text.data).map fun l => ⟨l⟩

/-- Argument vector of `hookmark_link` (line 140): `["clip", item]`. -/
def linkArgs (item : String) : List String :=
  ["clip", item]

/-- Argument vector of `hookmark_connect` (line 185). -/
def connectArgs (item_a item_b : String) : List String :=
  ["link", item_a, item_b]

/-- JS truthiness of the optional `item` parameter (`if (item)`, line 230):
present and non-empty. -/
def itemTruthy : Option String → Bool
  | none => false
  | some s => s ≠ ""

/-- Argument vector of `hookmark_list` (lines 228-230): format flag, then
`--files_only` when true, then the item when truthy. -/
def listArgs (item : Option String) (format : OutputFormat)
    (files_only : Bool) : List String :=
  ["list", "-o", formatStr format]
    ++ (if files_only then ["--files_only"] else [])
    ++ (match item with
        | some s => if s ≠ "" then [s] else []
        | none => [])

/-- Argument vector of `hookmark_search` (lines 281-284). -/
def searchArgs (query : String) (format : OutputFormat)
    (names_only files_only : Bool) : List String :=
  ["find", "-o", formatStr format]
    ++ (if names_only then ["--names_only"] else [])
    ++ (if files_only then ["--files_only"] else [])
    ++ [query]

/-- Argument vector of `hookmark_remove` (line 321). -/
def removeArgs (item_a item_b : String) : List String :=
  ["remove", item_a, item_b]

/-- Argument vector of `hookmark_clone` (line 358). -/
def cloneArgs (source destination : String) : List String :=
  ["clone", source, destination]

/-- Argument vector of `hookmark_frontmost` (lines 396-398). -/
def frontmostArgs (app : String) (markdown : Bool) : List String :=
  ["from"] ++ (if markdown then ["--markdown"] else []) ++ [app]

/-- The `hookmark_link` handler (lines 137-160) as a pure function of the
validated parameter and the process outcome. -/
def hookmark_link (item : String) (r : ExecResult) : ToolResponse :=
  match runHook (linkArgs item) r with
  | .error msg => errorResponse msg
  | .ok output =>
      match extractHookUrl output with
      | some url => textResponse url
      | none =>
          textResponse
            (if output ≠ "" then output
             else "Hookmark URL for '" ++ item
                  ++ "' copied to clipboard. Paste to retrieve the URL.")

/-- The `hookmark_connect` handler (lines 183-197). -/
def hookmark_connect (item_a item_b : String) (r : ExecResult) : ToolResponse :=
  match runHook (connectArgs item_a item_b) r with
  | .error msg => errorResponse msg
  | .ok output =>
      textResponse
        (if output ≠ "" then output
         else "Hook created between '" ++ item_a ++ "' and '" ++ item_b ++ "'.")

/-- The `hookmark_list` handler (lines 226-247). -/
def hookmark_list (item : Option String) (format : OutputFormat)
    (files_only : Bool) (r : ExecResult) : ToolResponse :=
  match runHook (listArgs item format files_only) r with
  | .error msg => errorResponse msg
  | .ok output =>
      if output = "" then
        textResponse
          (if itemTruthy item then
             "No hooks found for '" ++ (item.getD "") ++ "'."
           else "No Hookmark bookmarks found.")
      else textResponse output

/-- The `hookmark_search` handler (lines 279-296). -/
def hookmark_search (query : String) (format : OutputFormat)
    (names_only files_only : Bool) (r : ExecResult) : ToolResponse :=
  match runHook (searchArgs query format names_only files_only) r with
  | .error msg => errorResponse msg
  | .ok output =>
      if output = "" then
        textResponse ("No bookmarks found matching '" ++ query ++ "'.")
      else textResponse output

/-- The `hookmark_remove` handler (lines 319-333). -/
def hookmark_remove (item_a item_b : String) (r : ExecResult) : ToolResponse :=
  match runHook (removeArgs item_a item_b) r with
  | .error msg => errorResponse msg
  | .ok output =>
      textResponse
        (if output ≠ "" then output
         else "Hook removed between '" ++ item_a ++ "' and '" ++ item_b ++ "'.")

/-- The `hookmark_clone` handler (lines 356-370). -/
def hookmark_clone (source destination : String) (r : ExecResult) : ToolResponse :=
  match runHook (cloneArgs source destination) r with
  | .error msg => errorResponse msg
  | .ok output =>
      textResponse
        (if output ≠ "" then output
         else "Cloned hooks from '" ++ source ++ "' to '" ++ destination ++ "'.")

/-- The `hookmark_frontmost` handler (lines 394-415). -/
def hookmark_frontmost (app : String) (markdown : Bool) (r : ExecResult) :
    ToolResponse :=
  match runHook (frontmostArgs app markdown) r with
  | .error msg => errorResponse msg
  | .ok output =>
      if output = "" then
        textResponse
          ("Could not get a Hookmark URL from '" ++ app
           ++ "'. Make sure the app is running and has an active document.")
      else textResponse output

/-- Raw (pre-validation) parameters of `hookmark_link`; an absent field is
`none`. -/
structure RawLink where
  item : Option String
deriving DecidableEq

/-- Raw parameters of the two-item operations (`hookmark_connect`,
`hookmark_remove`, `hookmark_clone`): first/second operand. -/
structure RawPair where
  first : Option String
  second : Option String
deriving DecidableEq

/-- Raw parameters of `hookmark_list`. -/
structure RawList where
  item : Option String
  format : Option String
  files_only : Option Bool
deriving DecidableEq

/-- Raw parameters of `hookmark_search`. -/
structure RawSearch where
  query : Option String
  format : Option String
  names_only : Option Bool
  files_only : Option Bool
deriving DecidableEq

/-- Raw parameters of `hookmark_frontmost`. -/
structure RawFrontmost where
  app : Option String
  markdown : Option Bool
deriving DecidableEq

/-- The schema `z.string().min(1)`: a required string of length at least one. -/
def reqString : Option String → Option String
  | none => none
  | some s => if s.length ≥ 1 then some s else none

/-- Optional `format` with a default: present values must belong to the
enumeration, an absent value takes the default. -/
def optFormat (dflt : OutputFormat) : Option String → Option OutputFormat
  | none => some dflt
  | some s => formatOfString s

/-- Validate `hookmark_link` parameters against its declared schema
(lines 131-136). -/
def validateLink (p : RawLink) : Option String :=
  reqString p.item

/-- Validate a two-required-string schema (`hookmark_connect` lines 173-182,
`hookmark_remove` lines 309-318, `hookmark_clone` lines 346-355). -/
def validatePair (p : RawPair) : Option (String × String) :=
  match reqString p.first, reqString p.second with
  | some a, some b => some (a, b)
  | _, _ => none

/-- Validate `hookmark_list` parameters (lines 212-225): `item` is optional
with no minimum length, `format` defaults to `paths`, `files_only` to
`false`. -/
def validateList (p : RawList) : Option (Option String × OutputFormat × Bool) :=
  match optFormat .paths p.format with
  | some f => some (p.item, f, p.files_only.getD false)
  | none => none

/-- Validate `hookmark_search` parameters (lines 261-278): `format`
defaults to `markdown`. -/
def validateSearch (p : RawSearch) :
    Option (String × OutputFormat × Bool × Bool) :=
  match reqString p.query, optFormat .markdown p.format with
  | some q, some f => some (q, f, p.names_only.getD false, p.files_only.getD false)
  | _, _ => none

/-- Validate `hookmark_frontmost` parameters (lines 384-393). -/
def validateFrontmost (p : RawFrontmost) : Option (String × Bool) :=
  match reqString p.app with
  | some a => some (a, p.markdown.getD false)
  | none => none

/-- Result of dispatching one call: either a structured validation
rejection issued before any process is spawned, or an execution that
spawned the external binary with the recorded argument vector and produced
a tool response. -/
inductive DispatchResult where
  | rejected (msg : String)
  | executed (spawnedArgs : List String) (response : ToolResponse)
deriving DecidableEq

/-- Modelled from the spec: the parameter-validation gating performed by
the RPC framework around each registered tool (`a validation error ...
must never reach the Command Invoker — no process is spawned`).  The
framework itself is a consumed library, not in `src/`; the schemas are the
zod declarations of `src/index.ts`.  Dispatch for `hookmark_link`. -/
def dispatchLink (p : RawLink) (r : ExecResult) : DispatchResult :=
  match validateLink p with
  | some item => .executed (linkArgs item) (hookmark_link item r)
  | none => .rejected "invalid parameters"

/-- Modelled from the spec: framework validation gating, dispatch for
`hookmark_connect`. -/
def dispatchConnect (p : RawPair) (r : ExecResult) : DispatchResult :=
  match validatePair p with
  | some (a, b) => .executed (connectArgs a b) (hookmark_connect a b r)
  | none => .rejected "invalid parameters"

/-- Modelled from the spec: framework validation gating, dispatch for
`hookmark_list`. -/
def dispatchList (p : RawList) (r : ExecResult) : DispatchResult :=
  match validateList p with
  | some (i, f, fo) => .executed (listArgs i f fo) (hookmark_list i f fo r)
  | none => .rejected "invalid parameters"

/-- Modelled from the spec: framework validation gating, dispatch for
`hookmark_search`. -/
def dispatchSearch (p : RawSearch) (r : ExecResult) : DispatchResult :=
  match validateSearch p with
  | some (q, f, no, fo) =>
      .executed (searchArgs q f no fo) (hookmark_search q f no fo r)
  | none => .rejected "invalid parameters"

/-- Modelled from the spec: framework validation gating, dispatch for
`hookmark_remove`. -/
def dispatchRemove (p : RawPair) (r : ExecResult) : DispatchResult :=
  match validatePair p with
  | some (a, b) => .executed (removeArgs a b) (hookmark_remove a b r)
  | none => .rejected "invalid parameters"

/-- Modelled from the spec: framework validation gating, dispatch for
`hookmark_clone`. -/
def dispatchClone (p : RawPair) (r : ExecResult) : DispatchResult :=
  match validatePair p with
  | some (s, d) => .executed (cloneArgs s d) (hookmark_clone s d r)
  | none => .rejected "invalid parameters"

/-- Modelled from the spec: framework validation gating, dispatch for
`hookmark_frontmost`. -/
def dispatchFrontmost (p : RawFrontmost) (r : ExecResult) : DispatchResult :=
  match validateFrontmost p with
  | some (a, md) => .executed (frontmostArgs a md) (hookmark_frontmost a md r)
  | none => .rejected "invalid parameters"

/-- Predicate: `needle` occurs as a contiguous substring of `hay`. -/
def occursIn (needle hay : String) : Prop :=
  ∃ pre post, hay.data = pre ++ needle.data ++ post

/-- Claim C7. On exit code zero, `runHook` returns the captured standard
output trimmed of leading and trailing whitespace; the spawn options
disable standard input and capture standard output and standard error as
two separate pipes. -/
theorem runHook_success_trims (args : List String) (out : String) :
    runHook args (.success out) = .ok (jsTrim out)
      ∧ execSyncOptions.stdinMode = "ignore"
      ∧ execSyncOptions.stdoutMode = "pipe"
      ∧ execSyncOptions.stderrMode = "pipe" :=
  ⟨rfl, rfl, rfl, rfl⟩

/-- Claim C5. Every operation's argument vector is its fixed sub-command
token, then the flag options (`-o <value>`, and a standalone token for each
boolean that is true, nothing for a false boolean), then the positional
operands; in particular `frontmost` with `app = "Mail"`, `markdown = true`
yields `from --markdown Mail`. -/
theorem argVector_shape (item a b src dst app q : String) (itm : Option String)
    (fmt : OutputFormat) (fo no md : Bool) :
    linkArgs item = "clip" :: [item]
      ∧ connectArgs a b = "link" :: [a, b]
      ∧ listArgs itm fmt fo
          = "list" :: (["-o", formatStr fmt]
              ++ (if fo then ["--files_only"] else []))
            ++ (if itemTruthy itm then [itm.getD ""] else [])
      ∧ searchArgs q fmt no fo
          = "find" :: (["-o", formatStr fmt]
              ++ (if no then ["--names_only"] else [])
              ++ (if fo then ["--files_only"] else []))
            ++ [q]
      ∧ removeArgs a b = "remove" :: [a, b]
      ∧ cloneArgs src dst = "clone" :: [src, dst]
      ∧ frontmostArgs app md
          = "from" :: (if md then ["--markdown"] else []) ++ [app]
      ∧ frontmostArgs "Mail" true = ["from", "--markdown", "Mail"] := by
  refine ⟨rfl, rfl, ?_, ?_, rfl, rfl, ?_, rfl⟩
  · cases itm with
    | none => simp [listArgs, itemTruthy]
    | some s =>
        by_cases hs : s = "" <;> simp [listArgs, itemTruthy, hs]
  · cases no <;> cases fo <;> simp [searchArgs]
  · cases md <;> simp [frontmostArgs]

/-- Claim C4. Whenever `runHook` fails, every handler returns the uniform
error envelope: `isError` set and a single text item carrying the failure
message prefixed with `Error: `; no handler lets the failure escape. -/
theorem handlers_wrap_failures (item a b src dst app q : String)
    (itm : Option String) (fmt : OutputFormat) (no fo md : Bool)
    (e : ExecError) :
    (∃ m, runHook (linkArgs item) (.failure e) = .error m
       ∧ hookmark_link item (.failure e)
           = { content := [{ type := "text", text := "Error: " ++ m }],
               isError := true })
    ∧ (∃ m, runHook (connectArgs a b) (.failure e) = .error m
       ∧ hookmark_connect a b (.failure e)
           = { content := [{ type := "text", text := "Error: " ++ m }],
               isError := true })
    ∧ (∃ m, runHook (listArgs itm fmt fo) (.failure e) = .error m
       ∧ hookmark_list itm fmt fo (.failure e)
           = { content := [{ type := "text", text := "Error: " ++ m }],
               isError := true })
    ∧ (∃ m, runHook (searchArgs q fmt no fo) (.failure e) = .error m
       ∧ hookmark_search q fmt no fo (.failure e)
           = { content := [{ type := "text", text := "Error: " ++ m }],
               isError := true })
    ∧ (∃ m, runHook (removeArgs a b) (.failure e) = .error m
       ∧ hookmark_remove a b (.failure e)
           = { content := [{ type := "text", text := "Error: " ++ m }],
               isError := true })
    ∧ (∃ m, runHook (cloneArgs src dst) (.failure e) = .error m
       ∧ hookmark_clone src dst (.failure e)
           = { content := [{ type := "text", text := "Error: " ++ m }],
               isError := true })
    ∧ (∃ m, runHook (frontmostArgs app md) (.failure e) = .error m
       ∧ hookmark_frontmost app md (.failure e)
           = { content := [{ type := "text", text := "Error: " ++ m }],
               isError := true }) :=
  ⟨⟨_, rfl, rfl⟩, ⟨_, rfl, rfl⟩, ⟨_, rfl, rfl⟩, ⟨_, rfl, rfl⟩,
   ⟨_, rfl, rfl⟩, ⟨_, rfl, rfl⟩, ⟨_, rfl, rfl⟩⟩

/-- Claim C2, counterexample. With empty stderr, non-empty captured stdout
`"captured output"` and error message `"Command failed: hook link"`, the
claim predicts the failure carries the trimmed stdout; `runHook` instead
ignores stdout and raises the error's own message text. -/
theorem runHook_no_stdout_fallback :
    runHook ["link", "a", "b"]
        (.failure { stderr := "", stdout := "captured output",
                    message := "Command failed: hook link" })
      = .error "Command failed: hook link"
    ∧ runHook ["link", "a", "b"]
        (.failure { stderr := "", stdout := "captured output",
                    message := "Command failed: hook link" })
      ≠ .error "captured output" := by
  have h1 : runHook ["link", "a", "b"]
      (.failure { stderr := "", stdout := "captured output",
                  message := "Command failed: hook link" })
      = .error "Command failed: hook link" := rfl
  refine ⟨h1, ?_⟩
  rw [h1]
  intro h2
  have h3 : ("Command failed: hook link" : String) = "captured output" := by
    injection h2
  exact absurd h3 (by decide)

/-- Claim C2, amended. On failure, `runHook` raises: the trimmed standard
error when it trims non-empty; else, when standard error is the empty
string, the trimmed error message when it trims non-empty; and in the
remaining cases (the selected text trims to whitespace only) the generic
message naming the failed sub-command, the first element of the argument
vector.  Captured standard output is never consulted. -/
theorem runHook_failure_detail (args : List String) (e : ExecError) :
    (jsTrim e.stderr ≠ "" →
       runHook args (.failure e) = .error (jsTrim e.stderr))
    ∧ (e.stderr = "" → jsTrim e.message ≠ "" →
       runHook args (.failure e) = .error (jsTrim e.message))
    ∧ (e.stderr = "" → jsTrim e.message = "" →
       runHook args (.failure e)
         = .error ("hook " ++ (args.head?.getD "undefined") ++ " failed"))
    ∧ (e.stderr ≠ "" → jsTrim e.stderr = "" →
       runHook args (.failure e)
         = .error ("hook " ++ (args.head?.getD "undefined") ++ " failed")) := by
  have hempty : jsTrim "" = "" := rfl
  refine ⟨?_, ?_, ?_, ?_⟩
  · intro h
    have hne : e.stderr ≠ "" := by
      intro h0
      rw [h0, hempty] at h
      exact h rfl
    simp [runHook, hne, h]
  · intro h0 h
    simp [runHook, h0, h]
  · intro h0 h
    simp [runHook, h0, h]
  · intro hne h
    simp [runHook, hne, h]

/-- Witness for `runHook_failure_detail`: one concrete instance of each of
the four failure cases. -/
theorem runHook_failure_detail_witness :
    runHook ["link"] (.failure { stderr := " boom ", stdout := "", message := "m" })
        = .error (jsTrim " boom ")
    ∧ runHook ["clip"] (.failure { stderr := "", stdout := "", message := " msg " })
        = .error (jsTrim " msg ")
    ∧ runHook ["clip"] (.failure { stderr := "", stdout := "", message := "" })
        = .error "hook clip failed"
    ∧ runHook ["from"] (.failure { stderr := "  ", stdout := "", message := "m" })
        = .error "hook from failed" :=
  ⟨(runHook_failure_detail ["link"]
      { stderr := " boom ", stdout := "", message := "m" }).1 (by decide),
   (runHook_failure_detail ["clip"]
      { stderr := "", stdout := "", message := " msg " }).2.1 rfl (by decide),
   (runHook_failure_detail ["clip"]
      { stderr := "", stdout := "", message := "" }).2.2.1 rfl rfl,
   (runHook_failure_detail ["from"]
      { stderr := "  ", stdout := "", message := "m" }).2.2.2 (by decide) (by decide)⟩

theorem sandwich_ne_and_occurs (a b c : String) (ha : a.data ≠ []) :
    a ++ b ++ c ≠ "" ∧ occursIn b (a ++ b ++ c) := by
  constructor
  · intro h
    have hd := congrArg String.data h
    simp only [String.data_append] at hd
    have h1 := List.append_eq_nil.mp hd
    exact ha (List.append_eq_nil.mp h1.1).1
  · exact ⟨a.data, c.data, by rw [String.data_append, String.data_append]⟩

theorem occursIn_empty (hay : String) : occursIn "" hay :=
  ⟨hay.data, [], by simp⟩

/-- Claim C6. When the captured output trims to empty: `search` returns a
non-empty synthesized message containing the query; `list` with an item
given returns a non-empty synthesized message containing that item; `list`
without an item returns the generic `No Hookmark bookmarks found.`
message. -/
theorem emptyOutput_messages (itm : Option String) (s q raw : String)
    (fmt : OutputFormat) (no fo : Bool) (hraw : jsTrim raw = "") :
    (∃ t, hookmark_search q fmt no fo (.success raw) = textResponse t
        ∧ t ≠ "" ∧ occursIn q t)
    ∧ (itm = some s →
        ∃ t, hookmark_list itm fmt fo (.success raw) = textResponse t
        ∧ t ≠ "" ∧ occursIn s t)
    ∧ hookmark_list none fmt fo (.success raw)
        = textResponse "No Hookmark bookmarks found." := by
  refine ⟨?_, ?_, ?_⟩
  · refine ⟨"No bookmarks found matching '" ++ q ++ "'.", ?_, ?_, ?_⟩
    · simp [hookmark_search, runHook, hraw]
    · exact (sandwich_ne_and_occurs "No bookmarks found matching '" q "'."
        (by decide)).1
    · exact (sandwich_ne_and_occurs "No bookmarks found matching '" q "'."
        (by decide)).2
  · rintro rfl
    by_cases hs : s = ""
    · subst hs
      refine ⟨"No Hookmark bookmarks found.", ?_, by decide, occursIn_empty _⟩
      simp [hookmark_list, runHook, hraw, itemTruthy]
    · refine ⟨"No hooks found for '" ++ s ++ "'.", ?_, ?_, ?_⟩
      · simp [hookmark_list, runHook, hraw, itemTruthy, hs]
      · exact (sandwich_ne_and_occurs "No hooks found for '" s "'."
          (by decide)).1
      · exact (sandwich_ne_and_occurs "No hooks found for '" s "'."
          (by decide)).2
  · simp [hookmark_list, runHook, hraw, itemTruthy]

/-- Witness for `emptyOutput_messages` at concrete inputs: query
`invoice`, item `/tmp/a.md`, raw output a blank line. -/
theorem emptyOutput_messages_witness :
    jsTrim "\n" = ""
    ∧ ((∃ t, hookmark_search "invoice" .paths false false (.success "\n")
            = textResponse t ∧ t ≠ "" ∧ occursIn "invoice" t)
       ∧ ((some "/tmp/a.md" : Option String) = some "/tmp/a.md" →
           ∃ t, hookmark_list (some "/tmp/a.md") .paths false (.success "\n")
              = textResponse t ∧ t ≠ "" ∧ occursIn "/tmp/a.md" t)
       ∧ hookmark_list none .paths false (.success "\n")
           = textResponse "No Hookmark bookmarks found.") :=
  ⟨by decide,
   emptyOutput_messages (some "/tmp/a.md") "/tmp/a.md" "invoice" "\n"
     .paths false false (by decide)⟩

/-- Claim C9. For `list`, an empty-string item passes the schema (no minimum
length), builds the same argument vector as an absent item, is handled
identically to an absent item for every process outcome, and on empty
output yields the generic `No Hookmark bookmarks found.` message. -/
theorem list_empty_item_like_absent (fmt : OutputFormat) (fo : Bool)
    (raw : String) (hraw : jsTrim raw = "") :
    validateList { item := some "", format := none, files_only := none }
        = some (some "", .paths, false)
    ∧ listArgs (some "") fmt fo = listArgs none fmt fo
    ∧ (∀ r, hookmark_list (some "") fmt fo r = hookmark_list none fmt fo r)
    ∧ hookmark_list (some "") fmt fo (.success raw)
        = textResponse "No Hookmark bookmarks found." := by
  refine ⟨rfl, by simp [listArgs], ?_, ?_⟩
  · intro r
    cases r with
    | success out => simp [hookmark_list, listArgs, itemTruthy]
    | failure e => simp [hookmark_list, listArgs, itemTruthy]
  · simp [hookmark_list, runHook, hraw, itemTruthy, listArgs]

/-- Witness for `list_empty_item_like_absent` at format `paths`,
`files_only = false`, raw output the empty string. -/
theorem list_empty_item_like_absent_witness :
    validateList { item := some "", format := none, files_only := none }
        = some (some "", .paths, false)
    ∧ listArgs (some "") .paths false = listArgs none .paths false
    ∧ (∀ r, hookmark_list (some "") .paths false r
          = hookmark_list none .paths false r)
    ∧ hookmark_list (some "") .paths false (.success "")
        = textResponse "No Hookmark bookmarks found." :=
  list_empty_item_like_absent .paths false "" rfl

/-- Claim C8. A call whose parameters fail the declared schema is rejected
by the dispatch layer before the Command Invoker runs: the dispatch result
is a structured rejection, never an execution, so no argument vector is
spawned and `runHook` is never reached. -/
theorem validation_blocks_spawn (pl : RawLink) (pc pr pcl : RawPair)
    (plist : RawList) (ps : RawSearch) (pf : RawFrontmost) (r : ExecResult)
    (ar : List String) (resp : ToolResponse) :
    (validateLink pl = none → dispatchLink pl r ≠ .executed ar resp)
    ∧ (validatePair pc = none → dispatchConnect pc r ≠ .executed ar resp)
    ∧ (validateList plist = none → dispatchList plist r ≠ .executed ar resp)
    ∧ (validateSearch ps = none → dispatchSearch ps r ≠ .executed ar resp)
    ∧ (validatePair pr = none → dispatchRemove pr r ≠ .executed ar resp)
    ∧ (validatePair pcl = none → dispatchClone pcl r ≠ .executed ar resp)
    ∧ (validateFrontmost pf = none → dispatchFrontmost pf r ≠ .executed ar resp) := by
  refine ⟨?_, ?_, ?_, ?_, ?_, ?_, ?_⟩ <;> intro h
  · simp [dispatchLink, h]
  · simp [dispatchConnect, h]
  · simp [dispatchList, h]
  · simp [dispatchSearch, h]
  · simp [dispatchRemove, h]
  · simp [dispatchClone, h]
  · simp [dispatchFrontmost, h]

/-- Witness for `validation_blocks_spawn`: an empty required string
(`link`, `connect`, `remove`, `clone`, `frontmost`), a format value
outside the enumeration (`list`), and a missing required query (`search`)
are all rejected without executing anything. -/
theorem validation_blocks_spawn_witness :
    (dispatchLink { item := some "" } (.success "")
        ≠ .executed ["clip", ""] (textResponse "x"))
    ∧ (dispatchConnect { first := some "", second := some "b" } (.success "")
        ≠ .executed ["link", "", "b"] (textResponse "x"))
    ∧ (dispatchList { item := none, format := some "bogus", files_only := none }
          (.success "")
        ≠ .executed ["list", "-o", "bogus"] (textResponse "x"))
    ∧ (dispatchSearch { query := none, format := none, names_only := none,
                        files_only := none } (.success "")
        ≠ .executed ["find"] (textResponse "x"))
    ∧ (dispatchRemove { first := some "a", second := some "" } (.success "")
        ≠ .executed ["remove", "a", ""] (textResponse "x"))
    ∧ (dispatchClone { first := none, second := some "b" } (.success "")
        ≠ .executed ["clone"] (textResponse "x"))
    ∧ (dispatchFrontmost { app := some "", markdown := some true } (.success "")
        ≠ .executed ["from", "--markdown", ""] (textResponse "x")) :=
  ⟨(validation_blocks_spawn { item := some "" }
      { first := some "", second := some "b" }
      { first := some "a", second := some "" }
      { first := none, second := some "b" }
      { item := none, format := some "bogus", files_only := none }
      { query := none, format := none, names_only := none, files_only := none }
      { app := some "", markdown := some true }
      (.success "") ["clip", ""] (textResponse "x")).1 rfl,
   (validation_blocks_spawn { item := some "" }
      { first := some "", second := some "b" }
      { first := some "a", second := some "" }
      { first := none, second := some "b" }
      { item := none, format := some "bogus", files_only := none }
      { query := none, format := none, names_only := none, files_only := none }
      { app := some "", markdown := some true }
      (.success "") ["link", "", "b"] (textResponse "x")).2.1 rfl,
   (validation_blocks_spawn { item := some "" }
      { first := some "", second := some "b" }
      { first := some "a", second := some "" }
      { first := none, second := some "b" }
      { item := none, format := some "bogus", files_only := none }
      { query := none, format := none, names_only := none, files_only := none }
      { app := some "", markdown := some true }
      (.success "") ["list", "-o", "bogus"] (textResponse "x")).2.2.1 rfl,
   (validation_blocks_spawn { item := some "" }
      { first := some "", second := some "b" }
      { first := some "a", second := some "" }
      { first := none, second := some "b" }
      { item := none, format := some "bogus", files_only := none }
      { query := none, format := none, names_only := none, files_only := none }
      { app := some "", markdown := some true }
      (.success "") ["find"] (textResponse "x")).2.2.2.1 rfl,
   (validation_blocks_spawn { item := some "" }
      { first := some "", second := some "b" }
      { first := some "a", second := some "" }
      { first := none, second := some "b" }
      { item := none, format := some "bogus", files_only := none }
      { query := none, format := none, names_only := none, files_only := none }
      { app := some "", markdown := some true }
      (.success "") ["remove", "a", ""] (textResponse "x")).2.2.2.2.1 rfl,
   (validation_blocks_spawn { item := some "" }
      { first := some "", second := some "b" }
      { first := some "a", second := some "" }
      { first := none, second := some "b" }
      { item := none, format := some "bogus", files_only := none }
      { query := none, format := none, names_only := none, files_only := none }
      { app := some "", markdown := some true }
      (.success "") ["clone"] (textResponse "x")).2.2.2.2.2.1 rfl,
   (validation_blocks_spawn { item := some "" }
      { first := some "", second := some "b" }
      { first := some "a", second := some "" }
      { first := none, second := some "b" }
      { item := none, format := some "bogus", files_only := none }
      { query := none, format := none, names_only := none, files_only := none }
      { app := some "", markdown := some true }
      (.success "") ["from", "--markdown", ""] (textResponse "x")).2.2.2.2.2.2 rfl⟩

theorem head_dropWhile_not (p : Char → Bool) (l : List Char) :
    ∀ c, ((l.dropWhile p).head? = some c) → p c = false := by
  induction l with
  | nil => intro c h; simp [List.dropWhile] at h
  | cons a r ih =>
      intro c h
      rw [List.dropWhile_cons] at h
      by_cases hp : p a
      · rw [if_pos hp] at h; exact ih c h
      · rw [if_neg hp] at h
        simp only [List.head?_cons, Option.some.injEq] at h
        subst h
        exact Bool.of_not_eq_true hp

theorem tryMatchAt_sound (l m : List Char) (h : tryMatchAt l = some m) :
    ∃ w post, m = hookPrefix ++ w ∧ w ≠ [] ∧ (∀ c ∈ w, isUrlChar c = true)
      ∧ l = m ++ post ∧ (∀ c, post.head? = some c → isUrlChar c = false) := by
  unfold tryMatchAt at h
  by_cases h7 : l.take 7 = hookPrefix
  · rw [if_pos h7] at h
    cases hw : (l.drop 7).takeWhile isUrlChar with
    | nil => rw [hw] at h; cases h
    | cons c rest =>
        rw [hw] at h
        injection h with hm
        refine ⟨c :: rest, (l.drop 7).dropWhile isUrlChar, hm.symm, by simp,
          ?_, ?_, ?_⟩
        · intro c' hc'
          exact List.mem_takeWhile_imp (hw ▸ hc')
        · have hsplit : l = hookPrefix ++ l.drop 7 := by
            conv_lhs => rw [← List.take_append_drop 7 l]
            rw [h7]
          rw [← hm, List.append_assoc]
          conv_lhs => rw [hsplit]
          congr 1
          rw [← hw]
          exact (List.takeWhile_append_dropWhile (p := isUrlChar)
            (l := l.drop 7)).symm
        · exact head_dropWhile_not isUrlChar (l.drop 7)
  · rw [if_neg h7] at h; cases h

theorem findHookUrl_cons (a : Char) (r : List Char) :
    findHookUrl (a :: r)
      = match tryMatchAt (a :: r) with
        | some m => some m
        | none => findHookUrl r := rfl

theorem findHookUrl_sound (l : List Char) : ∀ m, findHookUrl l = some m →
    ∃ pre post w, l = pre ++ m ++ post ∧ m = hookPrefix ++ w ∧ w ≠ []
      ∧ (∀ c ∈ w, isUrlChar c = true)
      ∧ (∀ c, post.head? = some c → isUrlChar c = false) := by
  induction l with
  | nil => intro m h; cases h
  | cons a r ih =>
      intro m h
      rw [findHookUrl_cons] at h
      cases htm : tryMatchAt (a :: r) with
      | some m0 =>
          rw [htm] at h
          injection h with hm
          subst hm
          obtain ⟨w, post, hw1, hw2, hw3, hl, hpost⟩ := tryMatchAt_sound _ _ htm
          exact ⟨[], post, w, by simpa using hl, hw1, hw2, hw3, hpost⟩
      | none =>
          rw [htm] at h
          obtain ⟨pre, post, w, hl, hw1, hw2, hw3, hpost⟩ := ih m h
          exact ⟨a :: pre, post, w, by simp [hl], hw1, hw2, hw3, hpost⟩

theorem tryMatchAt_nil : tryMatchAt ([] : List Char) = none := rfl

theorem findHookUrl_isSome_of_match (l : List Char) :
    ∀ (i : Nat) (m : List Char), tryMatchAt (l.drop i) = some m →
      ∃ m', findHookUrl l = some m' := by
  induction l with
  | nil =>
      intro i m h
      rw [List.drop_nil, tryMatchAt_nil] at h
      cases h
  | cons a r ih =>
      intro i m h
      rw [findHookUrl_cons]
      cases htm : tryMatchAt (a :: r) with
      | some m0 => exact ⟨m0, rfl⟩
      | none =>
          cases i with
          | zero => rw [List.drop_zero, htm] at h; cases h
          | succ i =>
              have e : (a :: r).drop (i + 1) = r.drop i := rfl
              rw [e] at h
              exact ih i m h

theorem findHookUrl_leftmost (i : Nat) : ∀ (l m : List Char),
    tryMatchAt (l.drop i) = some m →
    (∀ k, k < i → tryMatchAt (l.drop k) = none) →
    findHookUrl l = some m := by
  induction i with
  | zero =>
      intro l m h _
      rw [List.drop_zero] at h
      cases l with
      | nil => rw [tryMatchAt_nil] at h; cases h
      | cons a r => rw [findHookUrl_cons, h]
  | succ i ih =>
      intro l m h hk
      have h0 : tryMatchAt l = none := by
        have := hk 0 (Nat.succ_pos i)
        rwa [List.drop_zero] at this
      cases l with
      | nil => rw [List.drop_nil, tryMatchAt_nil] at h; cases h
      | cons a r =>
          rw [findHookUrl_cons, h0]
          have e : (a :: r).drop (i + 1) = r.drop i := rfl
          rw [e] at h
          refine ih r m h ?_
          intro k hk'
          have := hk (k + 1) (Nat.succ_lt_succ hk')
          have e' : (a :: r).drop (k + 1) = r.drop k := rfl
          rwa [e'] at this

/-- Claim C3. For the `link` operation, when the (trimmed) captured output
contains a substring `hook://` followed by at least one
non-whitespace, non-quote character, the handler returns a success
envelope whose text is exactly an extracted URL: it starts with
`hook://`, continues with one or more URL characters, occurs verbatim in
the output, and is maximal there (the character following it, if any, is
not a URL character) — not the full raw output. -/
theorem link_returns_extracted_url (item raw : String)
    (h : ∃ pre c w post, (jsTrim raw).data
           = pre ++ hookPrefix ++ (c :: w) ++ post ∧ isUrlChar c = true) :
    ∃ u, hookmark_link item (.success raw) = textResponse u
      ∧ (∃ w', u.data = hookPrefix ++ w' ∧ w' ≠ []
           ∧ ∀ c' ∈ w', isUrlChar c' = true)
      ∧ ∃ pre' post', (jsTrim raw).data = pre' ++ u.data ++ post'
           ∧ ∀ c', post'.head? = some c' → isUrlChar c' = false := by
  obtain ⟨pre, c, w, post, hdecomp, hc⟩ := h
  have hdrop : (jsTrim raw).data.drop pre.length
      = hookPrefix ++ ((c :: w) ++ post) := by
    rw [hdecomp, List.append_assoc, List.append_assoc]
    exact List.drop_left pre _
  have htm : tryMatchAt ((jsTrim raw).data.drop pre.length)
      = some (hookPrefix ++ c :: (w ++ post).takeWhile isUrlChar) := by
    rw [hdrop]
    unfold tryMatchAt
    rw [if_pos (List.take_left' (show hookPrefix.length = 7 from rfl)),
      List.drop_left' (show hookPrefix.length = 7 from rfl)]
    simp [List.cons_append, List.takeWhile_cons, hc]
  obtain ⟨m0, hm0⟩ :=
    findHookUrl_isSome_of_match (jsTrim raw).data pre.length _ htm
  obtain ⟨pre', post', w', hl, hw1, hw2, hw3, hpost⟩ :=
    findHookUrl_sound _ m0 hm0
  refine ⟨⟨m0⟩, ?_, ⟨w', hw1, hw2, hw3⟩, ⟨pre', post', hl, hpost⟩⟩
  simp [hookmark_link, runHook, extractHookUrl, hm0]

/-- Witness for `link_returns_extracted_url` on the output
`Copied hook://file/AbC123 to clipboard`. -/
theorem link_returns_extracted_url_witness :
    ∃ u, hookmark_link "/x"
          (.success "Copied hook://file/AbC123 to clipboard")
        = textResponse u
      ∧ (∃ w', u.data = hookPrefix ++ w' ∧ w' ≠ []
           ∧ ∀ c' ∈ w', isUrlChar c' = true)
      ∧ ∃ pre' post',
           (jsTrim "Copied hook://file/AbC123 to clipboard").data
             = pre' ++ u.data ++ post'
           ∧ ∀ c', post'.head? = some c' → isUrlChar c' = false :=
  link_returns_extracted_url "/x" "Copied hook://file/AbC123 to clipboard"
    ⟨"Copied ".data, 'f', "ile/AbC123".data, " to clipboard".data,
     by decide, by decide⟩

/-- Claim C10. For the `link` operation, when the (trimmed) captured output
has a `hook://` match at position `i`, no match at any earlier position,
and another match at a later position `j`, the handler returns exactly the
first (leftmost) matched substring. -/
theorem link_returns_first_url (item raw : String) (i j : Nat)
    (m m2 : List Char)
    (hi : tryMatchAt ((jsTrim raw).data.drop i) = some m)
    (hfirst : ∀ k, k < i → tryMatchAt ((jsTrim raw).data.drop k) = none)
    (hij : i < j)
    (hj : tryMatchAt ((jsTrim raw).data.drop j) = some m2) :
    hookmark_link item (.success raw) = textResponse ⟨m⟩ := by
  have hf : findHookUrl (jsTrim raw).data = some m :=
    findHookUrl_leftmost i _ m hi hfirst
  simp [hookmark_link, runHook, extractHookUrl, hf]

/-- Witness for `link_returns_first_url` on the output
`see hook://a and hook://b2`, which contains two matches: the first,
`hook://a`, is returned. -/
theorem link_returns_first_url_witness :
    hookmark_link "/x" (.success "see hook://a and hook://b2")
      = textResponse "hook://a" :=
  link_returns_first_url "/x" "see hook://a and hook://b2" 4 17
    "hook://a".data "hook://b2".data
    (by decide) (by decide) (by decide) (by decide)
